import Mathlib

/-!
Verification development for the socket.io chat server (`src/frontend/chat.js`,
server half).  The server keeps three in-memory structures:

  * `users     : Map socket.id -> { username, avatar, status }`  (Connection Registry)
  * `usernames : Set String`                                     (Username Directory)
  * `groups    : Map groupName -> Set usernames`                 (Group Directory)

together with socket.io rooms (a socket joins the room named after its username
at login and the room named after a group at create/join) and a per-connection
closure variable `currentUser` (initially `null`).

JS `Map` and `Set` are modelled as insertion-ordered association lists / lists
without duplicates; `Map.set` replaces in place or appends, `Set.add` appends
when absent.  A handler that dereferences `undefined` (e.g. `sender.username`
when the socket never logged in) throws a `TypeError`; this is modelled as
`Except.error`.
-/

namespace Chat

/-- Value stored in the server `users` map: `{ username, avatar, status }`. -/
structure Identity where
  username : String
  avatar : String
  status : String
deriving DecidableEq, Repr

/-- Keys of an association list (the JS `Map` key set, in insertion order). -/
def keys {α β : Type} (m : List (α × β)) : List α := m.map Prod.fst

/-- JS `Map.get`: first entry with the key (keys are unique by construction). -/
def mapGet {α β : Type} [DecidableEq α] (m : List (α × β)) (k : α) : Option β :=
  (m.find? (fun p => decide (p.1 = k))).map Prod.snd

/-- JS `Map.has`. -/
def mapHas {α β : Type} [DecidableEq α] (m : List (α × β)) (k : α) : Bool :=
  (mapGet m k).isSome

/-- JS `Map.set`: replace in place when the key exists, else append. -/
def mapSet {α β : Type} [DecidableEq α] (m : List (α × β)) (k : α) (v : β) :
    List (α × β) :=
  if mapHas m k then m.map (fun p => if p.1 = k then (k, v) else p)
  else m ++ [(k, v)]

/-- JS `Map.delete`. -/
def mapDelete {α β : Type} [DecidableEq α] (m : List (α × β)) (k : α) :
    List (α × β) :=
  m.filter (fun p => decide (p.1 ≠ k))

/-- JS `Set.add`: append when absent. -/
def setAdd {α : Type} [DecidableEq α] (s : List α) (x : α) : List α :=
  if x ∈ s then s else s ++ [x]

/-- JS `Set.delete`. -/
def setDelete {α : Type} [DecidableEq α] (s : List α) (x : α) : List α :=
  s.filter (fun y => decide (y ≠ x))

/-- The complete server state.  `rooms` is the socket.io room table (room name
to subscribed socket ids); usernames and group names share this namespace, as
in the source (`socket.join(username)` and `socket.join(groupName)`).
`currentUsers` records the per-connection `let currentUser` closure variable
for the sockets on which it has been assigned. -/
structure ServerState where
  users : List (Nat × Identity)
  usernames : List String
  groups : List (String × List (Option String))
  rooms : List (String × List Nat)
  connected : List Nat
  currentUsers : List (Nat × String)
deriving DecidableEq, Repr

/-- Empty state at server start. -/
def initState : ServerState := ⟨[], [], [], [], [], []⟩

/-- Wire payloads the server emits. -/
inductive Payload where
  | userList (l : List Identity)
  | groupList (l : List (String × List (Option String)))
  | privMsg (fromU toU content ty avatar timestamp : String)
  | groupMsg (group fromU content ty avatar timestamp : String)
  | typingSig (fromU : String) (isGroup : Bool) (group : Option String)
  | hideSig (fromU : String)
  | avail (b : Bool)
deriving DecidableEq, Repr

/-- One emitted event: which socket receives it, the event name, the payload. -/
structure Emission where
  target : Nat
  event : String
  payload : Payload
deriving DecidableEq, Repr

/-- `getUserList()` helper: `Array.from(users.values())`. -/
def getUserList (s : ServerState) : List Identity := s.users.map Prod.snd

/-- `getGroupList()` helper: `[{name, members}]` in insertion order. -/
def getGroupList (s : ServerState) : List (String × List (Option String)) :=
  s.groups

/-- Sockets subscribed to a room (empty when the room does not exist). -/
def roomMembers (s : ServerState) (room : String) : List Nat :=
  (mapGet s.rooms room).getD []

/-- `socket.join(room)`. -/
def joinRoom (rooms : List (String × List Nat)) (room : String) (sid : Nat) :
    List (String × List Nat) :=
  mapSet rooms room (setAdd ((mapGet rooms room).getD []) sid)

/-- `io.emit(ev, p)`: to every connected socket. -/
def ioEmit (s : ServerState) (ev : String) (p : Payload) : List Emission :=
  s.connected.map (fun t => ⟨t, ev, p⟩)

/-- `io.to(room).emit(ev, p)`: to every socket in the room, sender included. -/
def roomEmit (s : ServerState) (room ev : String) (p : Payload) :
    List Emission :=
  (roomMembers s room).map (fun t => ⟨t, ev, p⟩)

/-- `socket.to(room).emit(ev, p)`: to every socket in the room except the
sender. -/
def socketToRoomEmit (s : ServerState) (sender : Nat) (room ev : String)
    (p : Payload) : List Emission :=
  ((roomMembers s room).filter (fun t => decide (t ≠ sender))).map
    (fun t => ⟨t, ev, p⟩)

/-- `[...users.entries()].find(([_, data]) => data.username === u)?.[0]`. -/
def lookupByUsername (s : ServerState) (u : String) : Option Nat :=
  (s.users.find? (fun p => decide (p.2.username = u))).map Prod.fst

/-- `status || 'Online'` (JS: `undefined` and the empty string are falsy). -/
def loginStatus : Option String → String
  | some st => if st = "" then "Online" else st
  | none => "Online"

/-- Inbound events, one per server-side handler (plus transport-level connect
and disconnect). -/
inductive Event where
  | connect (sid : Nat)
  | checkUsername (sid : Nat) (username : String)
  | login (sid : Nat) (username avatar : String) (status : Option String)
  | setStatus (sid : Nat) (status : String)
  | privateMessage (sid : Nat) (toU content ty : String)
  | groupMessage (sid : Nat) (groupName content ty : String)
  | typing (sid : Nat) (target ty : String)
  | stopTyping (sid : Nat) (target ty : String)
  | createGroup (sid : Nat) (groupName : String)
  | joinGroup (sid : Nat) (groupName : String)
  | disconnect (sid : Nat)
deriving DecidableEq, Repr

/-- The only runtime error the handlers can raise: reading a property of
`undefined` (`sender.username` when `users.get(socket.id)` found nothing). -/
inductive JsError where
  | typeErrorUndefined
deriving DecidableEq, Repr

/-- One handler invocation: the new state and the list of emissions, or the
uncaught `TypeError`.  `now` is the wall-clock string used for timestamps. -/
def step (now : String) (s : ServerState) : Event →
    Except JsError (ServerState × List Emission)
  | .connect sid =>
      .ok ({ s with connected := setAdd s.connected sid,
                    currentUsers := mapDelete s.currentUsers sid }, [])
  | .checkUsername sid u =>
      .ok (s, [⟨sid, "check_username_ack", .avail (decide (u ∈ s.usernames))⟩])
  | .login sid username avatar status =>
      let s' : ServerState :=
        { s with currentUsers := mapSet s.currentUsers sid username,
                 usernames := setAdd s.usernames username,
                 users := mapSet s.users sid
                   ⟨username, avatar, loginStatus status⟩,
                 rooms := joinRoom s.rooms username sid }
      .ok (s', ioEmit s' "update_users" (.userList (getUserList s'))
               ++ [⟨sid, "update_groups", .groupList (getGroupList s')⟩])
  | .setStatus sid status =>
      match mapGet s.users sid with
      | some idy =>
          let s' := { s with
                        users := mapSet s.users sid
                          ({ idy with status := status }) }
          .ok (s', ioEmit s' "update_users" (.userList (getUserList s')))
      | none => .ok (s, [])
  | .privateMessage sid toU content ty =>
      match mapGet s.users sid with
      | none => .error .typeErrorUndefined
      | some sender =>
          let msg : Payload :=
            .privMsg sender.username toU content ty sender.avatar now
          let dels : List Emission :=
            match lookupByUsername s toU with
            | some r => [⟨r, "receive_private", msg⟩]
            | none => []
          .ok (s, dels ++ [⟨sid, "receive_private", msg⟩])
  | .groupMessage sid groupName content ty =>
      match mapGet s.groups groupName with
      | none => .ok (s, [])
      | some members =>
          match mapGet s.users sid with
          | none => .error .typeErrorUndefined
          | some sender =>
              if some sender.username ∈ members then
                .ok (s, roomEmit s groupName "receive_group"
                      (.groupMsg groupName sender.username content ty
                        sender.avatar now))
              else .ok (s, [])
  | .typing sid target ty =>
      if ty = "private" then
        match lookupByUsername s target with
        | some r =>
            match mapGet s.users sid with
            | none => .error .typeErrorUndefined
            | some sender =>
                .ok (s, [⟨r, "display_typing",
                  .typingSig sender.username false none⟩])
        | none => .ok (s, [])
      else
        match mapGet s.users sid with
        | none => .error .typeErrorUndefined
        | some sender =>
            .ok (s, socketToRoomEmit s sid target "display_typing"
                  (.typingSig sender.username true (some target)))
  | .stopTyping sid target ty =>
      if ty = "private" then
        match lookupByUsername s target with
        | some r =>
            match mapGet s.users sid with
            | none => .error .typeErrorUndefined
            | some sender =>
                .ok (s, [⟨r, "hide_typing", .hideSig sender.username⟩])
        | none => .ok (s, [])
      else
        match mapGet s.users sid with
        | none => .error .typeErrorUndefined
        | some sender =>
            .ok (s, socketToRoomEmit s sid target "hide_typing"
                  (.hideSig sender.username))
  | .createGroup sid groupName =>
      if mapHas s.groups groupName then .ok (s, [])
      else
        let cu := mapGet s.currentUsers sid
        let s' := { s with groups := mapSet s.groups groupName [cu],
                           rooms := joinRoom s.rooms groupName sid }
        .ok (s', ioEmit s' "update_groups" (.groupList (getGroupList s')))
  | .joinGroup sid groupName =>
      match mapGet s.groups groupName with
      | none => .ok (s, [])
      | some members =>
          let cu := mapGet s.currentUsers sid
          let s' := { s with
                        groups := mapSet s.groups groupName
                          (setAdd members cu),
                        rooms := joinRoom s.rooms groupName sid }
          .ok (s', ioEmit s' "update_groups" (.groupList (getGroupList s')))
  | .disconnect sid =>
      let cu := mapGet s.currentUsers sid
      let sBase : ServerState :=
        { s with connected := setDelete s.connected sid,
                 rooms := s.rooms.map (fun p => (p.1, setDelete p.2 sid)),
                 currentUsers := mapDelete s.currentUsers sid }
      match cu with
      | some u =>
          if u = "" then .ok (sBase, [])
          else
            let s' := { sBase with
                          usernames := setDelete s.usernames u,
                          users := mapDelete s.users sid,
                          groups := s.groups.map
                            (fun p => (p.1, setDelete p.2 (some u))) }
            .ok (s', ioEmit s' "update_users" (.userList (getUserList s')))
      | none => .ok (sBase, [])

/-- The new state of a step, the old state on a crash (the process dies, so
the state is frozen there). -/
def stepOk (now : String) (s : ServerState) (e : Event) :
    Option (ServerState × List Emission) :=
  match step now s e with
  | .ok r => some r
  | .error _ => none

/-- Run a timestamped event trace; a crash stops the run (the process is
dead, later events are never handled). -/
def runEvents : ServerState → List (String × Event) → ServerState
  | s, [] => s
  | s, (now, e) :: es =>
      match step now s e with
      | .ok r => runEvents r.1 es
      | .error _ => s

theorem mapGet_cons {α β : Type} [DecidableEq α] (p : α × β) (m : List (α × β))
    (k : α) : mapGet (p :: m) k = if p.1 = k then some p.2 else mapGet m k := by
  by_cases h : p.1 = k <;> simp [mapGet, List.find?, h]

theorem mapDelete_cons {α β : Type} [DecidableEq α] (p : α × β)
    (m : List (α × β)) (k : α) :
    mapDelete (p :: m) k =
      if p.1 = k then mapDelete m k else p :: mapDelete m k := by
  by_cases hp : p.1 = k <;> simp [mapDelete, List.filter_cons, hp]

theorem setDelete_cons {α : Type} [DecidableEq α] (y : α) (s : List α)
    (x : α) :
    setDelete (y :: s) x = if y = x then setDelete s x else y :: setDelete s x := by
  by_cases hy : y = x <;> simp [setDelete, List.filter_cons, hy]

theorem mapGet_eq_none_iff {α β : Type} [DecidableEq α] (m : List (α × β))
    (k : α) : mapGet m k = none ↔ k ∉ keys m := by
  induction m with
  | nil => simp [mapGet, keys]
  | cons p t ih =>
    by_cases h : p.1 = k <;> (simp [mapGet_cons, h, keys, ih]; try tauto)

theorem mapHas_iff {α β : Type} [DecidableEq α] (m : List (α × β)) (k : α) :
    mapHas m k = true ↔ k ∈ keys m := by
  rw [mapHas, Option.isSome_iff_ne_none, ne_eq, mapGet_eq_none_iff, not_not]

theorem mapSet_of_not_mem {α β : Type} [DecidableEq α] {m : List (α × β)}
    {k : α} (v : β) (h : k ∉ keys m) : mapSet m k v = m ++ [(k, v)] := by
  rw [mapSet, if_neg]
  simp [mapHas_iff, h]

theorem map_replace_of_not_mem {α β : Type} [DecidableEq α] {m : List (α × β)}
    {k : α} (v : β) (h : k ∉ keys m) :
    m.map (fun p => if p.1 = k then (k, v) else p) = m := by
  apply List.map_congr_left ?_ |>.trans m.map_id
  intro p hp
  have : p.1 ≠ k := by
    intro hk
    exact h (hk ▸ List.mem_map_of_mem Prod.fst hp)
  simp [this]

theorem keys_mapSet_of_mem {α β : Type} [DecidableEq α] {m : List (α × β)}
    {k : α} (v : β) (h : k ∈ keys m) :
    keys (mapSet m k v) = keys m := by
  rw [mapSet, if_pos ((mapHas_iff m k).2 h), keys, keys, List.map_map]
  apply List.map_congr_left
  intro p _
  by_cases hk : p.1 = k <;> simp [hk]

theorem keysNodup_mapSet {α β : Type} [DecidableEq α] {m : List (α × β)}
    {k : α} (v : β) (h : (keys m).Nodup) : (keys (mapSet m k v)).Nodup := by
  by_cases hk : k ∈ keys m
  · rw [keys_mapSet_of_mem v hk]; exact h
  · rw [mapSet_of_not_mem v hk, keys, List.map_append]
    refine List.Nodup.append h (List.nodup_singleton k) ?_
    intro a ha hb
    simp only [List.map_singleton, List.mem_singleton] at hb
    exact hk (hb ▸ ha)

theorem mapGet_replace_self {α β : Type} [DecidableEq α] (m : List (α × β))
    (k : α) (v : β) (hk : k ∈ keys m) :
    mapGet (m.map (fun p => if p.1 = k then (k, v) else p)) k = some v := by
  induction m with
  | nil => simp [keys] at hk
  | cons p t ih =>
    by_cases h : p.1 = k
    · simp [h, mapGet_cons]
    · have hkt : k ∈ keys t := by
        rcases (by simpa [keys] using hk : k = p.1 ∨ k ∈ keys t) with he | he
        · exact absurd he.symm h
        · exact he
      simp [h, mapGet_cons, ih hkt]

theorem mapGet_replace_ne {α β : Type} [DecidableEq α] (m : List (α × β))
    {k k' : α} (v : β) (h : k' ≠ k) :
    mapGet (m.map (fun p => if p.1 = k then (k, v) else p)) k' = mapGet m k' := by
  induction m with
  | nil => rfl
  | cons p t ih =>
    by_cases hp : p.1 = k
    · have hp' : p.1 ≠ k' := by rw [hp]; exact Ne.symm h
      simp [hp, mapGet_cons, Ne.symm h, hp', ih]
    · simp [hp, mapGet_cons, ih]

theorem mapGet_append_single_ne {α β : Type} [DecidableEq α]
    (m : List (α × β)) {k k' : α} (v : β) (h : k' ≠ k) :
    mapGet (m ++ [(k, v)]) k' = mapGet m k' := by
  induction m with
  | nil => simp [mapGet_cons, Ne.symm h, mapGet]
  | cons p t ih =>
    by_cases hp : p.1 = k' <;> simp [mapGet_cons, hp, ih]

theorem mapGet_mapSet_self {α β : Type} [DecidableEq α] (m : List (α × β))
    (k : α) (v : β) : mapGet (mapSet m k v) k = some v := by
  by_cases hk : k ∈ keys m
  · rw [mapSet, if_pos ((mapHas_iff _ _).2 hk)]
    exact mapGet_replace_self m k v hk
  · rw [mapSet_of_not_mem v hk]
    induction m with
    | nil => simp [mapGet_cons]
    | cons p t ih =>
      have hp : p.1 ≠ k := by
        intro he
        exact hk (by rw [keys, List.map_cons, he]; exact List.mem_cons_self _ _)
      have hkt : k ∉ keys t := by
        intro he
        exact hk (by rw [keys, List.map_cons]; exact List.mem_cons_of_mem _ he)
      simpa [mapGet_cons, hp] using ih hkt

theorem mapGet_mapSet_ne {α β : Type} [DecidableEq α] (m : List (α × β))
    {k k' : α} (v : β) (h : k' ≠ k) :
    mapGet (mapSet m k v) k' = mapGet m k' := by
  by_cases hk : k ∈ keys m
  · rw [mapSet, if_pos ((mapHas_iff _ _).2 hk)]
    exact mapGet_replace_ne m v h
  · rw [mapSet_of_not_mem v hk]
    exact mapGet_append_single_ne m v h

theorem mapGet_mapDelete_self {α β : Type} [DecidableEq α] (m : List (α × β))
    (k : α) : mapGet (mapDelete m k) k = none := by
  rw [mapGet_eq_none_iff]
  intro hk
  simp only [keys, List.mem_map] at hk
  rcases hk with ⟨p, hp, hfst⟩
  have hne := (List.mem_filter.1 hp).2
  rw [decide_eq_true_eq] at hne
  exact hne hfst

theorem mapGet_mapDelete_ne {α β : Type} [DecidableEq α] (m : List (α × β))
    {k k' : α} (h : k' ≠ k) : mapGet (mapDelete m k) k' = mapGet m k' := by
  induction m with
  | nil => rfl
  | cons p t ih =>
    by_cases hp : p.1 = k
    · have hp' : p.1 ≠ k' := by rw [hp]; exact Ne.symm h
      rw [mapDelete_cons, if_pos hp, ih, mapGet_cons, if_neg hp']
    · rw [mapDelete_cons, if_neg hp, mapGet_cons, mapGet_cons, ih]

theorem mapDelete_of_not_mem {α β : Type} [DecidableEq α] {m : List (α × β)}
    {k : α} (h : k ∉ keys m) : mapDelete m k = m := by
  apply List.filter_eq_self.2
  intro p hp
  simp only [decide_eq_true_eq]
  intro hk
  exact h (hk ▸ List.mem_map_of_mem Prod.fst hp)

theorem mem_of_mapGet_eq_some {α β : Type} [DecidableEq α] {m : List (α × β)}
    {k : α} {v : β} (h : mapGet m k = some v) : (k, v) ∈ m := by
  rcases Option.map_eq_some'.1 h with ⟨p, hfind, hsnd⟩
  have hk : p.1 = k := by simpa using List.find?_some hfind
  have := List.mem_of_find?_eq_some hfind
  rwa [show p = (k, v) from Prod.ext hk hsnd] at this

theorem mapGet_eq_some_of_mem {α β : Type} [DecidableEq α] {m : List (α × β)}
    {p : α × β} (hn : (keys m).Nodup) (hp : p ∈ m) :
    mapGet m p.1 = some p.2 := by
  induction m with
  | nil => simp at hp
  | cons q t ih =>
    have hn1 : q.1 ∉ keys t := by
      have h' := hn
      simp only [keys, List.map_cons, List.nodup_cons] at h'
      exact h'.1
    have hn2 : (keys t).Nodup := by
      have h' := hn
      simp only [keys, List.map_cons, List.nodup_cons] at h'
      exact h'.2
    rcases List.mem_cons.1 hp with h | h
    · rw [h, mapGet_cons, if_pos rfl]
    · have hq : q.1 ≠ p.1 := by
        intro he
        exact hn1 (he ▸ List.mem_map_of_mem Prod.fst h)
      rw [mapGet_cons, if_neg hq]
      exact ih hn2 h

theorem map_mapSet_of_get {α β γ : Type} [DecidableEq α] {m : List (α × β)}
    {k : α} {i : β} (v : β) (f : α × β → γ) (hn : (keys m).Nodup)
    (hg : mapGet m k = some i) (hf : f (k, v) = f (k, i)) :
    (mapSet m k v).map f = m.map f := by
  have hk : k ∈ keys m := List.mem_map_of_mem Prod.fst (mem_of_mapGet_eq_some hg)
  rw [mapSet, if_pos ((mapHas_iff _ _).2 hk), List.map_map]
  apply List.map_congr_left
  intro p hp
  by_cases he : p.1 = k
  · have : mapGet m k = some p.2 := he ▸ mapGet_eq_some_of_mem hn hp
    have hpi : p.2 = i := by rw [this] at hg; exact Option.some.inj hg
    have : p = (k, i) := Prod.ext he hpi
    simp [he, this, hf]
  · simp [he]

theorem mem_setAdd {α : Type} [DecidableEq α] (s : List α) (x y : α) :
    y ∈ setAdd s x ↔ y ∈ s ∨ y = x := by
  by_cases h : x ∈ s
  · simp only [setAdd, if_pos h]
    constructor
    · exact Or.inl
    · rintro (hy | rfl) <;> assumption
  · simp [setAdd, if_neg h]

theorem setAdd_of_mem {α : Type} [DecidableEq α] {s : List α} {x : α}
    (h : x ∈ s) : setAdd s x = s := by
  simp [setAdd, h]

theorem setAdd_of_not_mem {α : Type} [DecidableEq α] {s : List α} {x : α}
    (h : x ∉ s) : setAdd s x = s ++ [x] := by
  simp [setAdd, h]

theorem nodup_setAdd {α : Type} [DecidableEq α] {s : List α} (x : α)
    (h : s.Nodup) : (setAdd s x).Nodup := by
  by_cases hx : x ∈ s
  · rwa [setAdd_of_mem hx]
  · rw [setAdd_of_not_mem hx]
    refine List.Nodup.append h (List.nodup_singleton x) ?_
    intro a ha hb
    rw [List.mem_singleton] at hb
    exact hx (hb ▸ ha)

theorem mem_setDelete {α : Type} [DecidableEq α] (s : List α) (x y : α) :
    y ∈ setDelete s x ↔ y ∈ s ∧ y ≠ x := by
  simp [setDelete, List.mem_filter]

theorem nodup_setDelete {α : Type} [DecidableEq α] {s : List α} (x : α)
    (h : s.Nodup) : (setDelete s x).Nodup :=
  h.filter _

/-- The usernames recorded in the Connection Registry, in insertion order. -/
def usernamesOf (s : ServerState) : List String :=
  s.users.map (fun p => p.2.username)

/-- The registry invariants the server is meant to maintain:
the Username Directory has the same members as the usernames of the registry,
registry usernames are pairwise distinct, socket ids are unique keys, and a
connection's `currentUser` closure variable always matches its registry
record. -/
def RegistryInv (s : ServerState) : Prop :=
  (∀ u, u ∈ s.usernames ↔ u ∈ usernamesOf s)
  ∧ (usernamesOf s).Nodup
  ∧ (keys s.users).Nodup
  ∧ ∀ sid u, mapGet s.currentUsers sid = some u →
      ∃ i, mapGet s.users sid = some i ∧ i.username = u

/-- Admissible events: socket ids are fresh at connection time (socket.io
never reuses an id) and — the restriction the duplicate-login race forces —
every `login` presents a username not currently in the directory, from a
connection that is not already registered. -/
def eventAdmissible (s : ServerState) : Event → Prop
  | .connect sid => sid ∉ keys s.users ∧ sid ∉ keys s.currentUsers
  | .login sid username _ _ => username ∉ s.usernames ∧ sid ∉ keys s.users
  | _ => True

/-- States reachable through admissible events only. -/
inductive ReachableFresh : ServerState → Prop
  | init : ReachableFresh initState
  | next {s s' : ServerState} {e : Event} {now : String}
      {ems : List Emission} : ReachableFresh s → eventAdmissible s e →
      step now s e = .ok (s', ems) → ReachableFresh s'

theorem registryInv_congr {s s' : ServerState}
    (hu : s'.users = s.users) (hn : s'.usernames = s.usernames)
    (hc : ∀ sid u, mapGet s'.currentUsers sid = some u →
            mapGet s.currentUsers sid = some u)
    (hinv : RegistryInv s) : RegistryInv s' := by
  obtain ⟨inv1, inv2, inv3, inv4⟩ := hinv
  refine ⟨?_, ?_, ?_, ?_⟩
  · intro u
    rw [hn]
    unfold usernamesOf
    rw [hu]
    exact inv1 u
  · unfold usernamesOf
    rw [hu]
    exact inv2
  · unfold keys
    rw [hu]
    exact inv3
  · intro sid u hget
    rw [hu]
    exact inv4 sid u (hc sid u hget)

theorem registryInv_initState : RegistryInv initState := by
  refine ⟨?_, ?_, ?_, ?_⟩ <;> simp [initState, usernamesOf, keys, mapGet]

theorem registryInv_step {now : String} {s : ServerState} {e : Event}
    {s' : ServerState} {ems : List Emission}
    (hinv : RegistryInv s) (hadm : eventAdmissible s e)
    (h : step now s e = .ok (s', ems)) : RegistryInv s' := by
  obtain ⟨inv1, inv2, inv3, inv4⟩ := hinv
  cases e with
  | connect sid =>
    obtain ⟨had1, had2⟩ := hadm
    simp only [step, Except.ok.injEq, Prod.mk.injEq] at h
    obtain ⟨h1, -⟩ := h
    refine registryInv_congr (by rw [← h1]) (by rw [← h1]) ?_
      ⟨inv1, inv2, inv3, inv4⟩
    intro sid' u hget
    rw [← h1] at hget
    have hget' : mapGet (mapDelete s.currentUsers sid) sid' = some u := hget
    rwa [mapDelete_of_not_mem had2] at hget'
  | checkUsername sid u =>
    simp only [step, Except.ok.injEq, Prod.mk.injEq] at h
    obtain ⟨h1, -⟩ := h
    subst h1
    exact ⟨inv1, inv2, inv3, inv4⟩
  | login sid username avatar status =>
    obtain ⟨hadu, hadsid⟩ := hadm
    simp only [step, Except.ok.injEq, Prod.mk.injEq] at h
    obtain ⟨h1, -⟩ := h
    have hunotin : username ∉ usernamesOf s := fun hx => hadu ((inv1 _).2 hx)
    have husers : s'.users =
        s.users ++ [(sid, ⟨username, avatar, loginStatus status⟩)] := by
      rw [← h1]
      exact mapSet_of_not_mem _ hadsid
    have husernames : s'.usernames = s.usernames ++ [username] := by
      rw [← h1]
      exact setAdd_of_not_mem hadu
    have hcu : s'.currentUsers = mapSet s.currentUsers sid username := by
      rw [← h1]
    refine ⟨?_, ?_, ?_, ?_⟩
    · intro u
      rw [husernames]
      unfold usernamesOf
      rw [husers, List.map_append]
      simp only [List.map_singleton, List.mem_append, List.mem_singleton]
      exact or_congr (inv1 u) Iff.rfl
    · unfold usernamesOf
      rw [husers, List.map_append]
      refine List.Nodup.append inv2 (List.nodup_singleton _) ?_
      intro a ha hb
      simp only [List.map_singleton, List.mem_singleton] at hb
      exact hunotin (hb ▸ ha)
    · rw [show keys s'.users = keys (mapSet s.users sid
          ⟨username, avatar, loginStatus status⟩) from by rw [← h1]]
      exact keysNodup_mapSet _ inv3
    · intro sid' u hget
      rw [hcu] at hget
      rw [show s'.users = mapSet s.users sid
          ⟨username, avatar, loginStatus status⟩ from by rw [← h1]]
      by_cases hs' : sid' = sid
      · subst hs'
        rw [mapGet_mapSet_self] at hget
        refine ⟨⟨username, avatar, loginStatus status⟩,
          mapGet_mapSet_self _ _ _, ?_⟩
        exact Option.some.inj hget
      · rw [mapGet_mapSet_ne _ _ hs'] at hget
        obtain ⟨i, hi, hiu⟩ := inv4 sid' u hget
        exact ⟨i, by rw [mapGet_mapSet_ne _ _ hs']; exact hi, hiu⟩
  | setStatus sid status =>
    simp only [step] at h
    split at h
    case _ idy heq =>
      simp only [Except.ok.injEq, Prod.mk.injEq] at h
      obtain ⟨h1, -⟩ := h
      have hkeys : sid ∈ keys s.users :=
        List.mem_map_of_mem Prod.fst (mem_of_mapGet_eq_some heq)
      have husers : s'.users = mapSet s.users sid
          ({ idy with status := status }) := by rw [← h1]
      have hmapu : usernamesOf s' = usernamesOf s := by
        unfold usernamesOf
        rw [husers]
        exact map_mapSet_of_get _ _ inv3 heq rfl
      refine ⟨?_, ?_, ?_, ?_⟩
      · intro u
        rw [hmapu, show s'.usernames = s.usernames from by rw [← h1]]
        exact inv1 u
      · rw [hmapu]; exact inv2
      · rw [show keys s'.users = keys (mapSet s.users sid
            ({ idy with status := status })) from by rw [husers],
          keys_mapSet_of_mem _ hkeys]
        exact inv3
      · intro sid' u hget
        rw [show s'.currentUsers = s.currentUsers from by rw [← h1]] at hget
        obtain ⟨i, hi, hiu⟩ := inv4 sid' u hget
        rw [husers]
        by_cases hs' : sid' = sid
        · subst hs'
          refine ⟨{ idy with status := status }, mapGet_mapSet_self _ _ _, ?_⟩
          rw [hi] at heq
          have hii : i = idy := Option.some.inj heq
          show idy.username = u
          rw [← hii]
          exact hiu
        · exact ⟨i, by rw [mapGet_mapSet_ne _ _ hs']; exact hi, hiu⟩
    case _ heq =>
      simp only [Except.ok.injEq, Prod.mk.injEq] at h
      obtain ⟨h1, -⟩ := h
      subst h1
      exact ⟨inv1, inv2, inv3, inv4⟩
  | privateMessage sid toU content ty =>
    simp only [step] at h
    split at h
    · simp at h
    · simp only [Except.ok.injEq, Prod.mk.injEq] at h
      obtain ⟨h1, -⟩ := h
      subst h1
      exact ⟨inv1, inv2, inv3, inv4⟩
  | groupMessage sid groupName content ty =>
    simp only [step] at h
    split at h
    · simp only [Except.ok.injEq, Prod.mk.injEq] at h
      obtain ⟨h1, -⟩ := h
      subst h1
      exact ⟨inv1, inv2, inv3, inv4⟩
    · split at h
      · simp at h
      · split at h <;>
          (simp only [Except.ok.injEq, Prod.mk.injEq] at h
           obtain ⟨h1, -⟩ := h
           subst h1
           exact ⟨inv1, inv2, inv3, inv4⟩)
  | typing sid target ty =>
    simp only [step] at h
    split at h
    · split at h
      · split at h
        · simp at h
        · simp only [Except.ok.injEq, Prod.mk.injEq] at h
          obtain ⟨h1, -⟩ := h
          subst h1
          exact ⟨inv1, inv2, inv3, inv4⟩
      · simp only [Except.ok.injEq, Prod.mk.injEq] at h
        obtain ⟨h1, -⟩ := h
        subst h1
        exact ⟨inv1, inv2, inv3, inv4⟩
    · split at h
      · simp at h
      · simp only [Except.ok.injEq, Prod.mk.injEq] at h
        obtain ⟨h1, -⟩ := h
        subst h1
        exact ⟨inv1, inv2, inv3, inv4⟩
  | stopTyping sid target ty =>
    simp only [step] at h
    split at h
    · split at h
      · split at h
        · simp at h
        · simp only [Except.ok.injEq, Prod.mk.injEq] at h
          obtain ⟨h1, -⟩ := h
          subst h1
          exact ⟨inv1, inv2, inv3, inv4⟩
      · simp only [Except.ok.injEq, Prod.mk.injEq] at h
        obtain ⟨h1, -⟩ := h
        subst h1
        exact ⟨inv1, inv2, inv3, inv4⟩
    · split at h
      · simp at h
      · simp only [Except.ok.injEq, Prod.mk.injEq] at h
        obtain ⟨h1, -⟩ := h
        subst h1
        exact ⟨inv1, inv2, inv3, inv4⟩
  | createGroup sid groupName =>
    simp only [step] at h
    split at h <;>
      (simp only [Except.ok.injEq, Prod.mk.injEq] at h
       obtain ⟨h1, -⟩ := h
       refine registryInv_congr (by rw [← h1]) (by rw [← h1]) ?_
         ⟨inv1, inv2, inv3, inv4⟩
       intro sid' u hget
       rw [← h1] at hget
       exact hget)
  | joinGroup sid groupName =>
    simp only [step] at h
    split at h <;>
      (simp only [Except.ok.injEq, Prod.mk.injEq] at h
       obtain ⟨h1, -⟩ := h
       refine registryInv_congr (by rw [← h1]) (by rw [← h1]) ?_
         ⟨inv1, inv2, inv3, inv4⟩
       intro sid' u hget
       rw [← h1] at hget
       exact hget)
  | disconnect sid =>
    simp only [step] at h
    split at h
    case _ u hequ =>
      split at h
      case _ =>
        simp only [Except.ok.injEq, Prod.mk.injEq] at h
        obtain ⟨h1, -⟩ := h
        refine registryInv_congr (by rw [← h1]) (by rw [← h1]) ?_
          ⟨inv1, inv2, inv3, inv4⟩
        intro sid' u' hget
        rw [← h1] at hget
        have hget' : mapGet (mapDelete s.currentUsers sid) sid' = some u' :=
          hget
        by_cases hs' : sid' = sid
        · subst hs'
          rw [mapGet_mapDelete_self] at hget'
          exact absurd hget' (by simp)
        · rwa [mapGet_mapDelete_ne _ hs'] at hget'
      case _ hne =>
        simp only [Except.ok.injEq, Prod.mk.injEq] at h
        obtain ⟨h1, -⟩ := h
        obtain ⟨i, hi, hiu⟩ := inv4 sid u hequ
        have husers : s'.users = mapDelete s.users sid := by rw [← h1]
        have husernames : s'.usernames = setDelete s.usernames u := by
          rw [← h1]
        have hcu : s'.currentUsers = mapDelete s.currentUsers sid := by
          rw [← h1]
        have hmemsid : (sid, i) ∈ s.users := mem_of_mapGet_eq_some hi
        refine ⟨?_, ?_, ?_, ?_⟩
        · intro v
          rw [husernames, mem_setDelete]
          unfold usernamesOf
          rw [husers]
          unfold mapDelete
          simp only [List.mem_map, List.mem_filter, decide_eq_true_eq]
          constructor
          · rintro ⟨hv, hvu⟩
            obtain ⟨p, hp, hpv⟩ := List.mem_map.1 ((inv1 v).1 hv)
            refine ⟨p, ⟨hp, ?_⟩, hpv⟩
            intro hpsid
            have := mapGet_eq_some_of_mem inv3 hp
            rw [hpsid, hi] at this
            rw [← Option.some.inj this] at hpv
            exact hvu (hpv ▸ hiu.symm ▸ rfl)
          · rintro ⟨p, ⟨hp, hpsid⟩, hpv⟩
            have hvm : v ∈ usernamesOf s := by
              rw [← hpv]
              exact List.mem_map_of_mem _ hp
            refine ⟨(inv1 v).2 hvm, ?_⟩
            intro hvu
            have hpi : p = (sid, i) := by
              refine List.inj_on_of_nodup_map inv2 hp hmemsid ?_
              show p.2.username = i.username
              rw [hpv, hvu, hiu]
            exact hpsid (by rw [hpi])
        · unfold usernamesOf
          rw [husers]
          exact inv2.sublist ((List.filter_sublist _).map _)
        · unfold keys
          rw [husers]
          exact inv3.sublist ((List.filter_sublist _).map _)
        · intro sid' u' hget
          rw [hcu] at hget
          by_cases hs' : sid' = sid
          · subst hs'
            rw [mapGet_mapDelete_self] at hget
            exact absurd hget (by simp)
          · rw [mapGet_mapDelete_ne _ hs'] at hget
            obtain ⟨i', hi', hiu'⟩ := inv4 sid' u' hget
            rw [husers]
            exact ⟨i', by rw [mapGet_mapDelete_ne _ hs']; exact hi', hiu'⟩
    case _ hequ =>
      simp only [Except.ok.injEq, Prod.mk.injEq] at h
      obtain ⟨h1, -⟩ := h
      refine registryInv_congr (by rw [← h1]) (by rw [← h1]) ?_
        ⟨inv1, inv2, inv3, inv4⟩
      intro sid' u' hget
      rw [← h1] at hget
      have hget' : mapGet (mapDelete s.currentUsers sid) sid' = some u' :=
        hget
      by_cases hs' : sid' = sid
      · subst hs'
        rw [mapGet_mapDelete_self] at hget'
        exact absurd hget' (by simp)
      · rwa [mapGet_mapDelete_ne _ hs'] at hget'

theorem registryInv_of_reachable {s : ServerState} (h : ReachableFresh s) :
    RegistryInv s := by
  induction h with
  | init => exact registryInv_initState
  | next _ hadm hstep ih => exact registryInv_step ih hadm hstep

theorem keysNodup_users_step {now : String} {s : ServerState} {e : Event}
    {s' : ServerState} {ems : List Emission}
    (h : step now s e = .ok (s', ems)) (hn : (keys s.users).Nodup) :
    (keys s'.users).Nodup := by
  cases e with
  | connect sid =>
    simp only [step, Except.ok.injEq, Prod.mk.injEq] at h
    obtain ⟨h1, -⟩ := h
    rw [show keys s'.users = keys s.users from by rw [← h1]]
    exact hn
  | checkUsername sid u =>
    simp only [step, Except.ok.injEq, Prod.mk.injEq] at h
    obtain ⟨h1, -⟩ := h
    subst h1
    exact hn
  | login sid username avatar status =>
    simp only [step, Except.ok.injEq, Prod.mk.injEq] at h
    obtain ⟨h1, -⟩ := h
    rw [show keys s'.users = keys (mapSet s.users sid
        ⟨username, avatar, loginStatus status⟩) from by rw [← h1]]
    exact keysNodup_mapSet _ hn
  | setStatus sid status =>
    simp only [step] at h
    split at h
    case _ idy heq =>
      simp only [Except.ok.injEq, Prod.mk.injEq] at h
      obtain ⟨h1, -⟩ := h
      rw [show keys s'.users = keys (mapSet s.users sid
          ({ idy with status := status })) from by rw [← h1]]
      exact keysNodup_mapSet _ hn
    case _ heq =>
      simp only [Except.ok.injEq, Prod.mk.injEq] at h
      obtain ⟨h1, -⟩ := h
      subst h1
      exact hn
  | privateMessage sid toU content ty =>
    simp only [step] at h
    split at h
    · simp at h
    · simp only [Except.ok.injEq, Prod.mk.injEq] at h
      obtain ⟨h1, -⟩ := h
      subst h1
      exact hn
  | groupMessage sid groupName content ty =>
    simp only [step] at h
    split at h
    · simp only [Except.ok.injEq, Prod.mk.injEq] at h
      obtain ⟨h1, -⟩ := h
      subst h1
      exact hn
    · split at h
      · simp at h
      · split at h <;>
          (simp only [Except.ok.injEq, Prod.mk.injEq] at h
           obtain ⟨h1, -⟩ := h
           subst h1
           exact hn)
  | typing sid target ty =>
    simp only [step] at h
    split at h
    · split at h
      · split at h
        · simp at h
        · simp only [Except.ok.injEq, Prod.mk.injEq] at h
          obtain ⟨h1, -⟩ := h
          subst h1
          exact hn
      · simp only [Except.ok.injEq, Prod.mk.injEq] at h
        obtain ⟨h1, -⟩ := h
        subst h1
        exact hn
    · split at h
      · simp at h
      · simp only [Except.ok.injEq, Prod.mk.injEq] at h
        obtain ⟨h1, -⟩ := h
        subst h1
        exact hn
  | stopTyping sid target ty =>
    simp only [step] at h
    split at h
    · split at h
      · split at h
        · simp at h
        · simp only [Except.ok.injEq, Prod.mk.injEq] at h
          obtain ⟨h1, -⟩ := h
          subst h1
          exact hn
      · simp only [Except.ok.injEq, Prod.mk.injEq] at h
        obtain ⟨h1, -⟩ := h
        subst h1
        exact hn
    · split at h
      · simp at h
      · simp only [Except.ok.injEq, Prod.mk.injEq] at h
        obtain ⟨h1, -⟩ := h
        subst h1
        exact hn
  | createGroup sid groupName =>
    simp only [step] at h
    split at h <;>
      (simp only [Except.ok.injEq, Prod.mk.injEq] at h
       obtain ⟨h1, -⟩ := h
       rw [show keys s'.users = keys s.users from by rw [← h1]]
       exact hn)
  | joinGroup sid groupName =>
    simp only [step] at h
    split at h <;>
      (simp only [Except.ok.injEq, Prod.mk.injEq] at h
       obtain ⟨h1, -⟩ := h
       rw [show keys s'.users = keys s.users from by rw [← h1]]
       exact hn)
  | disconnect sid =>
    simp only [step] at h
    split at h
    case _ u hequ =>
      split at h <;>
        (simp only [Except.ok.injEq, Prod.mk.injEq] at h
         obtain ⟨h1, -⟩ := h)
      · rw [show keys s'.users = keys s.users from by rw [← h1]]
        exact hn
      · rw [show keys s'.users = keys (mapDelete s.users sid) from by
          rw [← h1]]
        exact hn.sublist ((List.filter_sublist _).map _)
    case _ hequ =>
      simp only [Except.ok.injEq, Prod.mk.injEq] at h
      obtain ⟨h1, -⟩ := h
      rw [show keys s'.users = keys s.users from by rw [← h1]]
      exact hn

theorem keysNodup_users_runEvents :
    ∀ (tr : List (String × Event)) (s : ServerState),
      (keys s.users).Nodup → (keys (runEvents s tr).users).Nodup
  | [], _, hs => hs
  | (nw, ev) :: t, s, hs => by
    rw [runEvents]
    cases hst : step nw s ev with
    | ok r =>
      obtain ⟨s1, e1⟩ := r
      exact keysNodup_users_runEvents t s1 (keysNodup_users_step hst hs)
    | error err => exact hs

/-- State with connection 0 logged in as "u" and a second connection 1
open but not yet logged in. -/
def sC1 : ServerState :=
  runEvents initState
    [("t", .connect 0), ("t", .login 0 "u" "a" none), ("t", .connect 1)]

/-- C1 counterexample: with "u" registered to the still-active connection 0,
a `login` of "u" from connection 1 does not fail: it succeeds and inserts a
second Identity into the Connection Registry, so the registry does not stay
unchanged as the claim requires. -/
theorem C1_counterexample :
    (stepOk "t" sC1 (Event.login 1 "u" "b" none)).isSome = true
    ∧ (stepOk "t" sC1 (Event.login 1 "u" "b" none)).map (fun r => r.1.users)
        ≠ some sC1.users
    ∧ (stepOk "t" sC1 (Event.login 1 "u" "b" none)).map (fun r => r.1.users)
        = some [(0, ⟨"u", "a", "Online"⟩), (1, ⟨"u", "b", "Online"⟩)] := by
  refine ⟨by decide, by decide, by decide⟩

/-- C1 (amended): a register/login of an already-registered username from
another connection never fails with DuplicateUsername; it succeeds, leaves
the Username Directory unchanged, and installs an Identity for the new
connection in the Connection Registry. -/
theorem C1_duplicate_login_succeeds (now : String) (s : ServerState)
    (sid : Nat) (u avatar : String) (st : Option String)
    (h : u ∈ s.usernames) :
    (stepOk now s (.login sid u avatar st)).isSome = true
    ∧ (stepOk now s (.login sid u avatar st)).map (fun r => r.1.usernames)
        = some s.usernames
    ∧ (stepOk now s (.login sid u avatar st)).map
        (fun r => mapGet r.1.users sid)
        = some (some ⟨u, avatar, loginStatus st⟩) := by
  refine ⟨rfl, ?_, ?_⟩
  · show some (setAdd s.usernames u) = some s.usernames
    rw [setAdd_of_mem h]
  · show some (mapGet (mapSet s.users sid ⟨u, avatar, loginStatus st⟩) sid) = _
    rw [mapGet_mapSet_self]

/-- C1 witness: concrete duplicate login at `sC1`. -/
theorem C1_witness :
    ("u" ∈ sC1.usernames)
    ∧ ((stepOk "t" sC1 (Event.login 1 "u" "b" none)).isSome = true
       ∧ (stepOk "t" sC1 (Event.login 1 "u" "b" none)).map
           (fun r => r.1.usernames) = some sC1.usernames
       ∧ (stepOk "t" sC1 (Event.login 1 "u" "b" none)).map
           (fun r => mapGet r.1.users 1)
           = some (some ⟨"u", "b", loginStatus none⟩)) :=
  ⟨by decide, C1_duplicate_login_succeeds "t" sC1 1 "u" "b" none (by decide)⟩

/-- Trace in which two distinct connections log in with the same username. -/
def trC2 : List (String × Event) :=
  [("t", .connect 0), ("t", .login 0 "u" "a" none),
   ("t", .connect 1), ("t", .login 1 "u" "b" none)]

/-- C2 counterexample: after two logins of "u" from distinct connections the
Connection Registry holds two active Identities with the same username, so
"at most one active Identity per username" fails on this reachable state. -/
theorem C2_counterexample :
    usernamesOf (runEvents initState trC2) = ["u", "u"]
    ∧ ¬ (usernamesOf (runEvents initState trC2)).Nodup := by
  refine ⟨by decide, by decide⟩

/-- C2 (amended): at most one Identity per connection handle holds in every
state reachable by any event sequence; at most one active Identity per
username holds in every state reachable through admissible events, i.e. when
no login reuses a username already in the directory (the duplicate-login
race) and no login reuses an already-registered connection. -/
theorem C2_identity_uniqueness :
    (∀ tr : List (String × Event),
       (keys (runEvents initState tr).users).Nodup)
    ∧ ∀ s : ServerState, ReachableFresh s → (usernamesOf s).Nodup := by
  constructor
  · intro tr
    exact keysNodup_users_runEvents tr initState (by decide)
  · intro s hs
    exact (registryInv_of_reachable hs).2.1

/-- State after `connect 0` alone. -/
def sW1 : ServerState := ⟨[], [], [], [], [0], []⟩

/-- State after `connect 0` then `login 0 "a" "av"`. -/
def sW2 : ServerState :=
  ⟨[(0, ⟨"a", "av", "Online"⟩)], ["a"], [], [("a", [0])], [0], [(0, "a")]⟩

theorem reachable_sW1 : ReachableFresh sW1 :=
  ReachableFresh.next ReachableFresh.init
    (show eventAdmissible initState (Event.connect 0)
      from ⟨by decide, by decide⟩)
    (show step "t" initState (Event.connect 0) = .ok (sW1, []) from rfl)

theorem reachable_sW2 : ReachableFresh sW2 :=
  ReachableFresh.next reachable_sW1
    (show eventAdmissible sW1 (Event.login 0 "a" "av" none)
      from ⟨by decide, by decide⟩)
    (show step "t" sW1 (Event.login 0 "a" "av" none)
      = .ok (sW2, [⟨0, "update_users", .userList [⟨"a", "av", "Online"⟩]⟩,
                   ⟨0, "update_groups", .groupList []⟩]) from rfl)

/-- C2 witness: the uniqueness properties evaluated on concrete runs. -/
theorem C2_witness :
    (keys (runEvents initState trC2).users).Nodup
    ∧ (usernamesOf sW2).Nodup :=
  ⟨C2_identity_uniqueness.1 trC2, C2_identity_uniqueness.2 sW2 reachable_sW2⟩

/-- Trace in which connection 0 logs in twice under different usernames. -/
def trC7 : List (String × Event) :=
  [("t", .connect 0), ("t", .login 0 "X" "a" none),
   ("t", .login 0 "Y" "a" none)]

/-- C7 counterexample: after a re-login under a new name, the Username
Directory still contains "X" while the Connection Registry maps no
connection to "X", so directory and registry usernames differ. -/
theorem C7_counterexample :
    (runEvents initState trC7).usernames = ["X", "Y"]
    ∧ usernamesOf (runEvents initState trC7) = ["Y"]
    ∧ "X" ∉ usernamesOf (runEvents initState trC7) := by
  refine ⟨by decide, by decide, by decide⟩

/-- C7 (amended): in every state reachable through admissible events (fresh
socket ids, and every login from an unregistered connection with a username
not currently in the directory) the Username Directory has exactly the
members of the registry's username set. -/
theorem C7_directory_matches_registry (s : ServerState)
    (h : ReachableFresh s) :
    ∀ u, u ∈ s.usernames ↔ u ∈ usernamesOf s :=
  (registryInv_of_reachable h).1

/-- C7 witness: the directory/registry agreement evaluated at `sW2`. -/
theorem C7_witness : "a" ∈ sW2.usernames ↔ "a" ∈ usernamesOf sW2 :=
  C7_directory_matches_registry sW2 reachable_sW2 "a"

/-- State after `connect 0` alone (no login). -/
def sC5 : ServerState := runEvents initState [("t", .connect 0)]

/-- C5: a `private_message` from a connection that never logged in makes the
handler dereference `sender.username` on `undefined`, an uncaught TypeError
that kills the process — the event is not dropped, contradicting the claim
that no bad event is fatal. -/
theorem C5_crash_on_unregistered_sender :
    step "t" sC5 (Event.privateMessage 0 "b" "hi" "text")
      = .error JsError.typeErrorUndefined := rfl

/-- C8: a `join_group` naming a group that does not exist is a complete
no-op: the state (Group Directory included) is unchanged, no `update_groups`
broadcast is emitted, and no error is surfaced. -/
theorem C8_join_absent_group (now : String) (s : ServerState) (sid : Nat)
    (g : String) (h : mapGet s.groups g = none) :
    step now s (.joinGroup sid g) = .ok (s, []) := by
  simp only [step, h]

/-- C8 witness: joining a group in the empty state. -/
theorem C8_witness :
    mapGet initState.groups "g" = none
    ∧ step "t" initState (Event.joinGroup 0 "g") = .ok (initState, []) :=
  ⟨rfl, C8_join_absent_group "t" initState 0 "g" rfl⟩

/-- State reached by: 0 logs in as "X", creates "g", re-logs-in as "Y";
then 1 logs in as "X" and joins "g".  Connection 0 is still subscribed to
the room of "g" although its username is now "Y" ∉ members("g"). -/
def sC3 : ServerState :=
  runEvents initState
    [("t", .connect 0), ("t", .login 0 "X" "a" none),
     ("t", .createGroup 0 "g"), ("t", .login 0 "Y" "a" none),
     ("t", .connect 1), ("t", .login 1 "X" "b" none),
     ("t", .joinGroup 1 "g")]

/-- C3 counterexample: a group message from the member "X" (connection 1) is
delivered to connection 0, whose current username "Y" is not a member of
"g" — delivery follows channel subscription, not the member set, so the
claim's "no connection whose username is not a member" fails. -/
theorem C3_counterexample :
    (stepOk "t" sC3 (Event.groupMessage 1 "g" "hi" "text")).map Prod.snd
      = some [⟨0, "receive_group", .groupMsg "g" "X" "hi" "text" "b" "t"⟩,
              ⟨1, "receive_group", .groupMsg "g" "X" "hi" "text" "b" "t"⟩]
    ∧ mapGet sC3.users 0 = some ⟨"Y", "a", "Online"⟩
    ∧ mapGet sC3.groups "g" = some [some "X"]
    ∧ some ("Y" : String) ∉ [some ("X" : String)] := by
  refine ⟨by decide, by decide, by decide, by decide⟩

/-- C3 (amended): for a group message from a registered sender, if the group
exists and the sender's username is a member, the envelope
{group, from, content, type, avatar, timestamp} goes to exactly the
connections subscribed to the group's channel (those which created or joined
it and have not disconnected since) — which can differ from the connections
currently mapped to member usernames after re-logins or duplicate logins;
otherwise (group absent or sender not a member) there are zero deliveries,
no error, and no state change. -/
theorem C3_group_message_routing (now : String) (s : ServerState) (sid : Nat)
    (g content ty : String) (sender : Identity)
    (h : mapGet s.users sid = some sender) :
    (∀ members, mapGet s.groups g = some members →
       some sender.username ∈ members →
       step now s (.groupMessage sid g content ty) =
         .ok (s, (roomMembers s g).map (fun t =>
           ⟨t, "receive_group",
             .groupMsg g sender.username content ty sender.avatar now⟩)))
    ∧ (mapGet s.groups g = none →
        step now s (.groupMessage sid g content ty) = .ok (s, []))
    ∧ (∀ members, mapGet s.groups g = some members →
        some sender.username ∉ members →
        step now s (.groupMessage sid g content ty) = .ok (s, [])) := by
  refine ⟨?_, ?_, ?_⟩
  · intro members hm hmem
    simp only [step, hm, h, roomEmit]
    rw [if_pos hmem]
  · intro hm
    simp only [step, hm]
  · intro members hm hmem
    simp only [step, hm, h]
    rw [if_neg hmem]

/-- State with "A" logged in on connection 0 and owning group "g". -/
def sC3w : ServerState :=
  runEvents initState
    [("t", .connect 0), ("t", .login 0 "A" "av" none),
     ("t", .createGroup 0 "g")]

/-- C3 witness: member send, group-absent send and non-member send at
concrete states. -/
theorem C3_witness :
    (mapGet sC3w.users 0 = some ⟨"A", "av", "Online"⟩
     ∧ mapGet sC3w.groups "g" = some [some "A"]
     ∧ (some ("A" : String) ∈ [some ("A" : String)]))
    ∧ step "h" sC3w (Event.groupMessage 0 "g" "hi" "text") =
        .ok (sC3w, (roomMembers sC3w "g").map (fun t =>
          ⟨t, "receive_group", .groupMsg "g" "A" "hi" "text" "av" "h"⟩))
    ∧ step "h" sC3w (Event.groupMessage 0 "nope" "hi" "text")
        = .ok (sC3w, []) :=
  ⟨⟨rfl, rfl, by decide⟩,
   (C3_group_message_routing "h" sC3w 0 "g" "hi" "text" ⟨"A", "av", "Online"⟩
      rfl).1 [some "A"] rfl (by decide),
   (C3_group_message_routing "h" sC3w 0 "nope" "hi" "text"
      ⟨"A", "av", "Online"⟩ rfl).2.1 rfl⟩

/-- C4: a private message from a registered sender is always echoed exactly
once to the sender's own connection; the recipient's connection additionally
receives the same envelope exactly when an Identity with the target username
is registered at that moment, and an unregistered target means a silent drop
with no error event of any kind. -/
theorem C4_private_message (now : String) (s : ServerState) (sid : Nat)
    (toU content ty : String) (sender : Identity)
    (h : mapGet s.users sid = some sender) :
    (∀ r, lookupByUsername s toU = some r →
       step now s (.privateMessage sid toU content ty) =
         .ok (s, [⟨r, "receive_private",
                    .privMsg sender.username toU content ty sender.avatar now⟩,
                  ⟨sid, "receive_private",
                    .privMsg sender.username toU content ty
                      sender.avatar now⟩]))
    ∧ (lookupByUsername s toU = none →
       step now s (.privateMessage sid toU content ty) =
         .ok (s, [⟨sid, "receive_private",
                    .privMsg sender.username toU content ty
                      sender.avatar now⟩]))
    ∧ (lookupByUsername s toU = none ↔ ∀ p ∈ s.users, p.2.username ≠ toU)
    ∧ (∀ r, lookupByUsername s toU = some r →
        ∃ p, p ∈ s.users ∧ p.1 = r ∧ p.2.username = toU) := by
  refine ⟨?_, ?_, ?_, ?_⟩
  · intro r hr
    simp only [step, h, hr]
    rfl
  · intro hr
    simp only [step, h, hr]
    rfl
  · rw [lookupByUsername, Option.map_eq_none']
    rw [List.find?_eq_none]
    constructor
    · intro hall p hp
      have := hall p hp
      rwa [decide_eq_true_eq] at this
    · intro hall p hp
      rw [decide_eq_true_eq]
      exact hall p hp
  · intro r hr
    rw [lookupByUsername] at hr
    rcases Option.map_eq_some'.1 hr with ⟨p, hfind, hfst⟩
    refine ⟨p, List.mem_of_find?_eq_some hfind, hfst, ?_⟩
    have := List.find?_some hfind
    rwa [decide_eq_true_eq] at this

/-- C4 witness: message to a registered target (self) and to an absent
target in the state `sW2`. -/
theorem C4_witness :
    (mapGet sW2.users 0 = some ⟨"a", "av", "Online"⟩
     ∧ lookupByUsername sW2 "b" = none)
    ∧ step "t" sW2 (Event.privateMessage 0 "b" "hi" "text") =
        .ok (sW2, [⟨0, "receive_private",
          .privMsg "a" "b" "hi" "text" "av" "t"⟩])
    ∧ step "t" sW2 (Event.privateMessage 0 "a" "yo" "text") =
        .ok (sW2, [⟨0, "receive_private", .privMsg "a" "a" "yo" "text" "av" "t"⟩,
                   ⟨0, "receive_private",
                     .privMsg "a" "a" "yo" "text" "av" "t"⟩]) :=
  ⟨⟨rfl, rfl⟩,
   (C4_private_message "t" sW2 0 "b" "hi" "text" ⟨"a", "av", "Online"⟩
      rfl).2.1 rfl,
   (C4_private_message "t" sW2 0 "a" "yo" "text" ⟨"a", "av", "Online"⟩
      rfl).1 0 rfl⟩

/-- Two users "u" (connection 0, owner of group "g") and "v"
(connection 1). -/
def sC6 : ServerState :=
  runEvents initState
    [("t", .connect 0), ("t", .login 0 "u" "a" none), ("t", .connect 1),
     ("t", .login 1 "v" "b" none), ("t", .createGroup 0 "g")]

/-- C6 counterexample: disconnecting "u" removes it from the member set of
"g", yet the handler emits zero `update_groups` events — only
`update_users` — so "triggers both broadcasts" fails on the code. -/
theorem C6_counterexample :
    (stepOk "t" sC6 (Event.disconnect 0)).map
        (fun r => r.2.filter (fun em => decide (em.event = "update_groups")))
      = some []
    ∧ (stepOk "t" sC6 (Event.disconnect 0)).map
        (fun r => mapGet r.1.groups "g") = some (some [])
    ∧ mapGet sC6.groups "g" = some [some "u"] := by
  refine ⟨by decide, by decide, by decide⟩

/-- C6 (amended): disconnecting a connection whose `currentUser` is a
registered (non-empty) username removes that username from the Username
Directory, removes the connection's record from the Registry, removes the
username from every group's member set, and then triggers only the
`update_users` broadcast (no `update_groups`); a disconnect of a connection
with no Identity leaves registry, directory and groups unchanged and emits
nothing. -/
theorem C6_disconnect (now : String) (s : ServerState) (sid : Nat) :
    (∀ u, mapGet s.currentUsers sid = some u → u ≠ "" →
       (stepOk now s (.disconnect sid)).map (fun r => r.1.usernames)
           = some (setDelete s.usernames u)
       ∧ (stepOk now s (.disconnect sid)).map (fun r => r.1.users)
           = some (mapDelete s.users sid)
       ∧ (stepOk now s (.disconnect sid)).map (fun r => r.1.groups)
           = some (s.groups.map (fun p => (p.1, setDelete p.2 (some u))))
       ∧ (stepOk now s (.disconnect sid)).map
             (fun r => r.2.filter
               (fun em => decide (em.event = "update_groups")))
           = some []
       ∧ (stepOk now s (.disconnect sid)).map
             (fun r => r.2.map Emission.event)
           = some ((setDelete s.connected sid).map
               (fun _ => "update_users")))
    ∧ (mapGet s.currentUsers sid = none →
       (stepOk now s (.disconnect sid)).map (fun r => r.1.usernames)
           = some s.usernames
       ∧ (stepOk now s (.disconnect sid)).map (fun r => r.1.users)
           = some s.users
       ∧ (stepOk now s (.disconnect sid)).map (fun r => r.1.groups)
           = some s.groups
       ∧ (stepOk now s (.disconnect sid)).map Prod.snd = some []) := by
  constructor
  · intro u hcu hne
    simp only [stepOk, step, hcu]
    rw [if_neg hne]
    refine ⟨rfl, rfl, rfl, ?_, ?_⟩
    · show some (List.filter _ (ioEmit _ "update_users" _)) = some []
      simp [ioEmit]
    · show some (List.map _ (ioEmit _ "update_users" _)) = _
      simp only [ioEmit, List.map_map]
      rfl
  · intro hcu
    simp only [stepOk, step, hcu]
    exact ⟨rfl, rfl, rfl, rfl⟩

/-- C6 witness: disconnect of registered "u" in `sC6`, and of the
never-logged-in connection in `sC5`. -/
theorem C6_witness :
    (stepOk "t" sC6 (Event.disconnect 0)).map (fun r => r.1.usernames)
        = some (setDelete sC6.usernames "u")
    ∧ (stepOk "t" sC5 (Event.disconnect 0)).map (fun r => r.1.users)
        = some sC5.users :=
  ⟨((C6_disconnect "t" sC6 0).1 "u" rfl (by decide)).1,
   ((C6_disconnect "t" sC5 0).2 rfl).2.1⟩

/-- C10: a group `typing`/`stop_typing` signal goes to exactly the
connections subscribed to the group's channel other than the sender's own;
the sender never receives its own group typing signal. -/
theorem C10_group_typing (now : String) (s : ServerState) (sid : Nat)
    (g : String) (sender : Identity)
    (h : mapGet s.users sid = some sender) :
    step now s (.typing sid g "group") =
      .ok (s, ((roomMembers s g).filter (fun t => decide (t ≠ sid))).map
        (fun t => ⟨t, "display_typing",
          .typingSig sender.username true (some g)⟩))
    ∧ step now s (.stopTyping sid g "group") =
      .ok (s, ((roomMembers s g).filter (fun t => decide (t ≠ sid))).map
        (fun t => ⟨t, "hide_typing", .hideSig sender.username⟩))
    ∧ (∀ ems, step now s (.typing sid g "group") = .ok (s, ems) →
        ∀ em ∈ ems, em.target ∈ roomMembers s g ∧ em.target ≠ sid)
    ∧ (∀ ems, step now s (.stopTyping sid g "group") = .ok (s, ems) →
        ∀ em ∈ ems, em.target ∈ roomMembers s g ∧ em.target ≠ sid) := by
  have h1 : step now s (.typing sid g "group") =
      .ok (s, ((roomMembers s g).filter (fun t => decide (t ≠ sid))).map
        (fun t => ⟨t, "display_typing",
          .typingSig sender.username true (some g)⟩)) := by
    simp only [step, h]
    rw [if_neg (by decide : ¬ ("group" : String) = "private")]
    rfl
  have h2 : step now s (.stopTyping sid g "group") =
      .ok (s, ((roomMembers s g).filter (fun t => decide (t ≠ sid))).map
        (fun t => ⟨t, "hide_typing", .hideSig sender.username⟩)) := by
    simp only [step, h]
    rw [if_neg (by decide : ¬ ("group" : String) = "private")]
    rfl
  refine ⟨h1, h2, ?_, ?_⟩
  · intro ems hems em hem
    rw [h1] at hems
    have hems' : ems = ((roomMembers s g).filter
        (fun t => decide (t ≠ sid))).map
        (fun t => ⟨t, "display_typing",
          .typingSig sender.username true (some g)⟩) :=
      (Prod.mk.injEq _ _ _ _ ▸ (Except.ok.inj hems.symm)).2
    rw [hems'] at hem
    rcases List.mem_map.1 hem with ⟨t, ht, hte⟩
    have htm := List.mem_filter.1 ht
    rw [← hte]
    exact ⟨htm.1, by simpa using htm.2⟩
  · intro ems hems em hem
    rw [h2] at hems
    have hems' : ems = ((roomMembers s g).filter
        (fun t => decide (t ≠ sid))).map
        (fun t => ⟨t, "hide_typing", .hideSig sender.username⟩) :=
      (Prod.mk.injEq _ _ _ _ ▸ (Except.ok.inj hems.symm)).2
    rw [hems'] at hem
    rcases List.mem_map.1 hem with ⟨t, ht, hte⟩
    have htm := List.mem_filter.1 ht
    rw [← hte]
    exact ⟨htm.1, by simpa using htm.2⟩

theorem mapSet_mapSet {α β : Type} [DecidableEq α] (m : List (α × β)) (k : α)
    (v w : β) : mapSet (mapSet m k v) k w = mapSet m k w := by
  by_cases hk : k ∈ keys m
  · have h1 : mapHas m k = true := (mapHas_iff m k).2 hk
    have h2 : k ∈ keys (mapSet m k v) := by
      rw [keys_mapSet_of_mem v hk]
      exact hk
    rw [mapSet, if_pos ((mapHas_iff _ _).2 h2), mapSet, if_pos h1, mapSet,
      if_pos h1, List.map_map]
    apply List.map_congr_left
    intro p _
    by_cases hp : p.1 = k <;> simp [hp]
  · have h2 : k ∈ keys (m ++ [(k, v)]) := by
      rw [keys, List.map_append]
      simp [keys]
    rw [mapSet_of_not_mem v hk, mapSet, if_pos ((mapHas_iff _ _).2 h2),
      mapSet_of_not_mem w hk, List.map_append, map_replace_of_not_mem w hk]
    simp

/-- C9: from any state where group g does not yet exist and connections cx,
cy have distinct current usernames x, y, creating g from cx and then joining
from cx and cy — in either order — produces identical server states, and the
member list of g serialized into the next `update_groups` payload is exactly
{x, y}. -/
theorem C9_create_join_commutes (now : String) (s : ServerState)
    (cx cy : Nat) (x y g : String)
    (hg : mapGet s.groups g = none)
    (hx : mapGet s.currentUsers cx = some x)
    (hy : mapGet s.currentUsers cy = some y)
    (hxy : x ≠ y) :
    runEvents s [(now, .createGroup cx g), (now, .joinGroup cx g),
                 (now, .joinGroup cy g)]
      = runEvents s [(now, .createGroup cx g), (now, .joinGroup cy g),
                     (now, .joinGroup cx g)]
    ∧ mapGet (runEvents s [(now, .createGroup cx g), (now, .joinGroup cx g),
                 (now, .joinGroup cy g)]).groups g = some [some x, some y]
    ∧ (g, [some x, some y]) ∈ getGroupList
        (runEvents s [(now, .createGroup cx g), (now, .joinGroup cx g),
                      (now, .joinGroup cy g)]) := by
  have hh : mapHas s.groups g = false := by rw [mapHas, hg]; rfl
  have e1 : setAdd [some x] (some x) = [some x] :=
    setAdd_of_mem (List.mem_singleton.2 rfl)
  have e2 : setAdd [some x] (some y) = [some x, some y] := by
    have hny : (some y : Option String) ∉ [some x] := by
      rw [List.mem_singleton]
      intro hc
      exact hxy (Option.some.inj hc).symm
    rw [setAdd_of_not_mem hny]
    rfl
  have e3 : setAdd [some x, some y] (some x) = [some x, some y] :=
    setAdd_of_mem (List.mem_cons_self _ _)
  have f1 : setAdd (setAdd ((mapGet s.rooms g).getD []) cx) cx
      = setAdd ((mapGet s.rooms g).getD []) cx :=
    setAdd_of_mem ((mem_setAdd _ _ _).2 (Or.inr rfl))
  have f2 : setAdd (setAdd (setAdd ((mapGet s.rooms g).getD []) cx) cy) cx
      = setAdd (setAdd ((mapGet s.rooms g).getD []) cx) cy :=
    setAdd_of_mem ((mem_setAdd _ _ _).2
      (Or.inl ((mem_setAdd _ _ _).2 (Or.inr rfl))))
  have h2 : mapGet (runEvents s
      [(now, .createGroup cx g), (now, .joinGroup cx g),
       (now, .joinGroup cy g)]).groups g = some [some x, some y] := by
    simp [runEvents, step, joinRoom, ioEmit, getGroupList, hh, hx, hy,
      mapGet_mapSet_self, mapSet_mapSet, e1, e2, e3, f1, f2]
  refine ⟨?_, h2, ?_⟩
  · simp [runEvents, step, joinRoom, ioEmit, getGroupList, hh, hx, hy,
      mapGet_mapSet_self, mapSet_mapSet, e1, e2, e3, f1, f2]
  · exact mem_of_mapGet_eq_some h2

/-- C9 witness: users "u" and "v" of `sC6` create and join a fresh group
"q" in both orders. -/
theorem C9_witness :
    (mapGet sC6.groups "q" = none
     ∧ mapGet sC6.currentUsers 0 = some "u"
     ∧ mapGet sC6.currentUsers 1 = some "v")
    ∧ runEvents sC6 [("t", .createGroup 0 "q"), ("t", .joinGroup 0 "q"),
        ("t", .joinGroup 1 "q")]
      = runEvents sC6 [("t", .createGroup 0 "q"), ("t", .joinGroup 1 "q"),
          ("t", .joinGroup 0 "q")]
    ∧ mapGet (runEvents sC6 [("t", .createGroup 0 "q"),
        ("t", .joinGroup 0 "q"), ("t", .joinGroup 1 "q")]).groups "q"
        = some [some "u", some "v"] :=
  ⟨⟨rfl, rfl, rfl⟩,
   (C9_create_join_commutes "t" sC6 0 1 "u" "v" "q" rfl rfl rfl
      (by decide)).1,
   (C9_create_join_commutes "t" sC6 0 1 "u" "v" "q" rfl rfl rfl
      (by decide)).2.1⟩

/-- C10 witness: group typing in `sC3` (room of "g" is {0, 1}, sender 1). -/
theorem C10_witness :
    mapGet sC3.users 1 = some ⟨"X", "b", "Online"⟩
    ∧ step "t" sC3 (Event.typing 1 "g" "group") =
        .ok (sC3, ((roomMembers sC3 "g").filter
            (fun t => decide (t ≠ 1))).map
          (fun t => ⟨t, "display_typing", .typingSig "X" true (some "g")⟩)) :=
  ⟨by decide,
   (C10_group_typing "t" sC3 1 "g" ⟨"X", "b", "Online"⟩ (by decide)).1⟩

end Chat
